import Mathlib

/-!
Verification of the emu2mqtt response-decoding and session layer.

This file gives a shallow embedding of the pure core of the repository:

* `responses.py` — hex decoding (`Response.to_int`), numeric scaling
  (`Response.to_formatted`), price encoding (`Response.format_price`),
  and the `_format` transforms of `Demand`, `PriceCluster` and
  `TimeCluster`, together with the `ResponseFactory` dispatch;
* `emu.py` — the frame-accumulation loop of `Emu2.serial_reader` and the
  pacing discipline of `Emu2.serial_writer`.

Python `float` arithmetic is modelled exactly over `ℚ`; Python `int` over
`ℤ`/`ℕ`.  A Python call that raises is modelled with `Except`/`Option`.
XML field values as produced by `xmltodict` are modelled by `FieldVal`:
a key can be wholly absent (attribute never set, access raises
`AttributeError`), present with value `None` (empty element), or present
with a string value.
-/

namespace Emu2Mqtt

/-! ## Hex parsing: `Response.to_int` / Python `int(s, 16)` -/

/-- Value of one hexadecimal digit character, case-insensitive. -/
def hexDigit? (c : Char) : Option ℕ :=
if '0' ≤ c ∧ c ≤ '9' then some (c.toNat - Char.toNat '0')
else if 'a' ≤ c ∧ c ≤ 'f' then some (c.toNat - Char.toNat 'a' + 10)
else if 'A' ≤ c ∧ c ≤ 'F' then some (c.toNat - Char.toNat 'A' + 10)
else none

/-- Accumulate a list of hex digit characters into a natural number. -/
def hexDigitsAux : List Char → ℕ → Option ℕ
| [], acc => some acc
| c :: cs, acc =>
  match hexDigit? c with
  | some d => hexDigitsAux cs (acc * 16 + d)
  | none => none

/-- Strip leading and trailing whitespace from a character list, as
Python `str.strip` does on the device's ASCII strings. -/
def trimChars (cs : List Char) : List Char :=
(((cs.dropWhile Char.isWhitespace).reverse).dropWhile Char.isWhitespace).reverse

/-- Python `int(s, 16)` on the device's value strings: surrounding
whitespace is stripped, an optional `0x`/`0X` prefix is skipped, and the
remaining characters must be one or more hex digits.  `none` models a
`ValueError`. -/
def hexNat? (s : String) : Option ℕ :=
let cs :=
  match trimChars s.data with
  | '0' :: 'x' :: rest => rest
  | '0' :: 'X' :: rest => rest
  | rest => rest
match cs with
| [] => none
| _ => hexDigitsAux cs 0

/-! ## `Response.to_hex`: Python `'0x{:X}'.format(n)` -/

/-- `Response.to_hex`: `0x`-prefixed upper-case hexadecimal rendering. -/
def to_hex (n : ℕ) : String :=
"0x" ++ String.mk ((Nat.toDigits 16 n).map Char.toUpper)

/-! ## Field values and attribute access -/

/-- One XML field as seen by a `Response` instance after the base
`_format` ran: the key can be absent from the parsed dict (so the
attribute was never set), present with `None` (empty XML element), or
present with a string value. -/
inductive FieldVal
| absent
| empty
| val (s : String)
deriving DecidableEq, Repr

/-- Errors a `_format` transform can raise. -/
inductive DecodeErr
| attributeError
| valueError
deriving DecidableEq, Repr

/-- Python attribute access `self.<field>`: raises `AttributeError` when
the field's key was absent from the response payload; an empty element
reads as `None`. -/
def getAttr : FieldVal → Except DecodeErr (Option String)
| FieldVal.absent => Except.error DecodeErr.attributeError
| FieldVal.empty => Except.ok none
| FieldVal.val s => Except.ok (some s)

/-- `Response.to_int`: `int(value or '0x00', 16)`.  A falsy value
(`None` or the empty string) defaults to `'0x00'`, i.e. `0`; an
unparseable string raises `ValueError`. -/
def to_int : Option String → Except DecodeErr ℕ
| none => Except.ok 0
| some s =>
  if s = "" then Except.ok 0
  else
    match hexNat? s with
    | some n => Except.ok n
    | none => Except.error DecodeErr.valueError

/-- Attribute access followed by `self.to_int(...)`, the pattern
`self.x = self.to_int(self.x)` used throughout `_format` methods. -/
def attrInt (v : FieldVal) : Except DecodeErr ℕ :=
getAttr v >>= to_int

/-! ## Rounding and `Response.to_formatted` -/

/-- Round a rational to the nearest integer, ties to even — the rounding
mode of Python's builtin `round`.  `f = q.num / q.den` is `⌊q⌋`
(`Rat.floor_def`) and `rem / q.den` is the fractional part `q - f`, so
the three branches are fractional part below, above, and exactly at one
half. -/
def roundHalfEven (q : ℚ) : ℤ :=
let f : ℤ := q.num / (q.den : ℤ)
let rem : ℤ := q.num % (q.den : ℤ)
if 2 * rem < (q.den : ℤ) then f
else if (q.den : ℤ) < 2 * rem then f + 1
else if f % 2 = 0 then f else f + 1

/-- Python `round(q, n)`: round to `n` decimal places, ties to even. -/
def roundTo (n : ℕ) (q : ℚ) : ℚ :=
(roundHalfEven (q * 10 ^ n) : ℚ) / 10 ^ n

/-- `Response.to_formatted`: `round(value * multiplier / float(divisor),
digits_right)`; the `ZeroDivisionError` raised when `divisor == 0` is
caught and `0` returned. -/
def to_formatted (value : ℤ) (multiplier divisor digits_right : ℕ) : ℚ :=
if divisor = 0 then 0
else roundTo digits_right (((value * multiplier : ℤ) : ℚ) / (divisor : ℚ))

/-! ## `Demand._format` -/

/-- The fields of a Demand-family response relevant to its `_format`
transform (identity fields such as `DeviceMacId`, which are copied
verbatim, are omitted). -/
structure DemandFields where
  multiplier : FieldVal
  divisor : FieldVal
  digits_right : FieldVal
  digits_left : FieldVal
  time_stamp : FieldVal
  start_date : FieldVal
  end_date : FieldVal
deriving DecidableEq, Repr

/-- A date attribute after `Demand._format`: either left as the raw
payload value (no clock offset known, or field missing/empty), or the
offset-adjusted integer. -/
inductive TimeField
| raw (v : FieldVal)
| int (n : ℤ)
deriving DecidableEq, Repr

/-- The attributes of a Demand-family response after `Demand._format`. -/
structure Demanded where
  multiplier : ℕ
  divisor : ℕ
  digits_right : ℕ
  digits_left : ℕ
  local_time_offset : Option ℤ
  time_stamp : TimeField
  start_date : TimeField
  end_date : TimeField
  reported_time_stamp : Option ℕ
  reported_start_date : Option ℕ
  reported_end_date : Option ℕ
deriving DecidableEq, Repr

/-- `if getattr(self, field, None):` — the guard is Python truthiness of
the raw value: only a present, non-empty string passes. -/
def truthyF : FieldVal → Bool
| FieldVal.val s => decide (s ≠ "")
| _ => false

/-- Offset adjustment of `time_stamp` / `end_date`: hex-decode, remember
the reported value, add the clock offset. -/
def adjustPlain (v : FieldVal) (o : ℤ) : Except DecodeErr (TimeField × Option ℕ) :=
if truthyF v then do
  let n ← to_int (← getAttr v)
  pure (TimeField.int ((n : ℤ) + o), some n)
else pure (TimeField.raw v, none)

/-- Offset adjustment of `start_date`: as `adjustPlain`, then floored to
the previous 300-second boundary (`self.start_date -= self.start_date %
300`). -/
def adjustStart (v : FieldVal) (o : ℤ) : Except DecodeErr (TimeField × Option ℕ) :=
if truthyF v then do
  let n ← to_int (← getAttr v)
  let adj : ℤ := (n : ℤ) + o
  pure (TimeField.int (adj - adj % 300), some n)
else pure (TimeField.raw v, none)

/-- `Demand._format`.  `off` is `emu.time_cluster.local_time_offset` when
that lookup succeeds (`none` models the `AttributeError → pass` path:
no emu back-reference or no `TimeCluster` decoded yet). -/
def demandFormat (f : DemandFields) (off : Option ℤ) : Except DecodeErr Demanded := do
let m ← attrInt f.multiplier
let d ← attrInt f.divisor
let dr ← attrInt f.digits_right
let dl ← attrInt f.digits_left
match off with
| none =>
  pure ⟨m, d, dr, dl, none, TimeField.raw f.time_stamp, TimeField.raw f.start_date,
    TimeField.raw f.end_date, none, none, none⟩
| some o => do
  let ts ← adjustPlain f.time_stamp o
  let sd ← adjustStart f.start_date o
  let ed ← adjustPlain f.end_date o
  pure ⟨m, d, dr, dl, some o, ts.1, sd.1, ed.1, ts.2, sd.2, ed.2⟩

/-! ## `PriceCluster._format` -/

/-- The fields of a `PriceCluster` response that its `_format` touches. -/
structure PriceFields where
  price : FieldVal
  currency : FieldVal
  tier : FieldVal
  trailing_digits : FieldVal
deriving DecidableEq, Repr

/-- The attributes of a `PriceCluster` response after `_format`. -/
structure PriceDecoded where
  reported_price : Option String
  price : Option ℚ
  currency : ℕ
  tier : ℕ
  trailing_digits : ℕ
deriving DecidableEq, Repr

/-- `PriceCluster._format`: the raw price is preserved as
`reported_price`; the exact string `'0xffffffff'` maps to `None`
(before any hex decoding), any other value is hex-decoded; a truthy
(non-`None`, non-zero) price is then rescaled by
`10 ** (trailing_digits - 2)`. -/
def priceClusterFormat (f : PriceFields) : Except DecodeErr PriceDecoded := do
let rawPrice ← getAttr f.price
let p0 : Option ℕ ←
  if rawPrice = some "0xffffffff" then pure none
  else do
    let p ← to_int rawPrice
    pure (some p)
let cur ← attrInt f.currency
let tr ← attrInt f.tier
let td ← attrInt f.trailing_digits
let price : Option ℚ :=
  match p0 with
  | some p => if p ≠ 0 then some ((p : ℚ) / (10 : ℚ) ^ ((td : ℤ) - 2)) else some ((p : ℚ))
  | none => none
pure ⟨rawPrice, price, cur, tr, td⟩

/-! ## `TimeCluster._format` and the clock-offset fact -/

/-- The fields of a `TimeCluster` response that its `_format` touches. -/
structure TimeFields where
  utctime : FieldVal
  local_time : FieldVal
deriving DecidableEq, Repr

/-- The attributes of a `TimeCluster` response after `_format`. -/
structure TimeDecoded where
  utctime : ℕ
  local_time : ℕ
  local_time_offset : ℤ
deriving DecidableEq, Repr

/-- `TimeCluster._format`: hex-decode `utctime` and `local_time`, then
set `local_time_offset = int(now.timestamp() - local_time +
now.utcoffset().total_seconds())`, with the wall clock passed in as the
epoch seconds `now` and the local UTC offset `utcoff`. -/
def timeClusterFormat (now utcoff : ℤ) (f : TimeFields) : Except DecodeErr TimeDecoded := do
let u ← attrInt f.utctime
let lt ← attrInt f.local_time
pure ⟨u, lt, now - (lt : ℤ) + utcoff⟩

/-- One decode event in a session, as driven by `Emu2.serial_reader`:
either a `TimeCluster` frame (together with the wall clock at decode
time) or a Demand-family frame. -/
inductive SessionEv
| tc (now utcoff : ℤ) (f : TimeFields)
| dem (f : DemandFields)

/-- How one event updates the cached clock-offset fact
(`emu.time_cluster.local_time_offset`): a successfully decoded
`TimeCluster` replaces it via `setattr(self, response.response_key,
response)` in `Emu2.serial_reader`; a failed decode is discarded before
the `setattr`, leaving the previous fact; Demand decodes never write
it. -/
def stepFact (st : Option ℤ) : SessionEv → Option ℤ
| SessionEv.tc now utcoff f =>
  match timeClusterFormat now utcoff f with
  | Except.ok t => some t.local_time_offset
  | Except.error _ => st
| SessionEv.dem _ => st

/-- The clock-offset fact after a sequence of decode events. -/
def runFact (st : Option ℤ) (evs : List SessionEv) : Option ℤ :=
evs.foldl stepFact st

/-- Run a session: each Demand-family frame is decoded against the
clock-offset fact current at that point. -/
def runSession (st : Option ℤ) : List SessionEv → List (Except DecodeErr Demanded)
| [] => []
| SessionEv.tc now utcoff f :: rest => runSession (stepFact st (SessionEv.tc now utcoff f)) rest
| SessionEv.dem f :: rest => demandFormat f st :: runSession st rest

/-! ## `ResponseFactory` -/

/-- The direct subclasses of `Response`, i.e. the classes returned by
`Response.__subclasses__()`.  Note that the Demand-family leaf classes
`class CurrentSummationDelivered(Demand, Response)` etc. list `Response`
as a direct base, so they appear here, and so does the shared base
`Demand` itself. -/
inductive ResponseKind
| deviceInfo
| connectionStatus
| demand
| currentSummationDelivered
| currentPeriodUsage
| lastPeriodUsage
| instantaneousDemand
| priceCluster
| timeCluster
deriving DecidableEq, Repr

/-- `klass.__name__` for each direct subclass of `Response`. -/
def className : ResponseKind → String
| ResponseKind.deviceInfo => "DeviceInfo"
| ResponseKind.connectionStatus => "ConnectionStatus"
| ResponseKind.demand => "Demand"
| ResponseKind.currentSummationDelivered => "CurrentSummationDelivered"
| ResponseKind.currentPeriodUsage => "CurrentPeriodUsage"
| ResponseKind.lastPeriodUsage => "LastPeriodUsage"
| ResponseKind.instantaneousDemand => "InstantaneousDemand"
| ResponseKind.priceCluster => "PriceCluster"
| ResponseKind.timeCluster => "TimeCluster"

/-- `Response.__subclasses__()` in class-definition order. -/
def responseKinds : List ResponseKind :=
[ResponseKind.deviceInfo, ResponseKind.connectionStatus, ResponseKind.demand,
 ResponseKind.currentSummationDelivered, ResponseKind.currentPeriodUsage,
 ResponseKind.lastPeriodUsage, ResponseKind.instantaneousDemand,
 ResponseKind.priceCluster, ResponseKind.timeCluster]

/-- The tag names `ResponseFactory` accepts, i.e. the keys of
`{klass.__name__: klass for klass in Response.__subclasses__()}`. -/
def responseTypes : List String :=
responseKinds.map className

/-- `ResponseFactory.__new__`: look the root tag name up among the
direct subclasses of `Response`; construct the matching class, or raise
`NotImplementedError` for an unknown tag. -/
def responseFactory (tag : String) : Except String ResponseKind :=
match responseKinds.find? (fun k => className k == tag) with
| some k => Except.ok k
| none => Except.error ("Response type \"" ++ tag ++ "\" is not defined")

/-! ## `Emu2.serial_reader`: frame accumulation -/

/-- One observable event at the serial reader: a decoded text line, or a
`SerialException` on `readline` (device disconnect, followed by a
blocking reconnect). -/
inductive ReaderEv
| line (s : String)
| disconnect

/-- Frame-assembly state of `Emu2.serial_reader`: the accumulating
`buffer`, and the completed frames handed to `ResponseFactory` so far
(whether or not they parse, the buffer is cleared afterwards). -/
structure ReaderState where
  buffer : String
  frames : List String
deriving DecidableEq, Repr

/-- `line.startswith('</')`, spelled on the character list. -/
def startsClose : List Char → Bool
| '<' :: '/' :: _ => true
| _ => false

/-- One iteration of the `serial_reader` loop.  A read line is stripped
and appended to the buffer; a line starting with `</` completes the
frame, which is handed off, and the buffer is reset.  On a
`SerialException` the handler sets `connected = False`, publishes
status and reconnects — it does not touch `buffer`. -/
def serialStep (st : ReaderState) : ReaderEv → ReaderState
| ReaderEv.disconnect => st
| ReaderEv.line s =>
  let l := String.mk (trimChars s.data)
  let buf := st.buffer ++ l
  if startsClose l.data then ⟨ "", st.frames ++ [buf]⟩
  else ⟨buf, st.frames⟩

/-- The reader state after a sequence of events, starting from the empty
buffer `serial_reader` initialises. -/
def serialRun (st : ReaderState) (evs : List ReaderEv) : ReaderState :=
evs.foldl serialStep st

/-! ## `Emu2.serial_writer`: write pacing -/

/-- Timed trace of `Emu2.serial_writer` under an injected clock: each
list entry is a queued command together with the nonnegative delay spent
waiting before its `serial_queue.get()` returns (queue empty and
not-connected backoff sleeps).  A write is emitted at the current clock,
then `asyncio.sleep(3)` advances the clock by (at least) 3 before the
next command is accepted. -/
def writerRun {α : Type} : ℤ → List (ℕ × α) → List (α × ℤ)
| _, [] => []
| t, (w, c) :: rest => (c, t + (w : ℤ)) :: writerRun (t + (w : ℤ) + 3) rest

/-! ## `Response.format_price` -/

/-- Value of one decimal digit character. -/
def decDigit? (c : Char) : Option ℕ :=
if '0' ≤ c ∧ c ≤ '9' then some (c.toNat - Char.toNat '0') else none

/-- Accumulate a list of decimal digit characters into a natural
number. -/
def decDigitsAux : List Char → ℕ → Option ℕ
| [], acc => some acc
| c :: cs, acc =>
  match decDigit? c with
  | some d => decDigitsAux cs (acc * 10 + d)
  | none => none

/-- Parse a plain unsigned decimal literal, the shape `Decimal(cents)`
receives from the price-set workflow: digits with at most one decimal
point.  Returns the digit string read as an integer and the number of
fractional digits.  `none` models `decimal.InvalidOperation`. -/
def parseDecimal? (s : String) : Option (ℕ × ℕ) :=
match s.data.splitOn '.' with
| [ip] =>
  match ip with
  | [] => none
  | _ => (decDigitsAux ip 0).map (fun n => (n, 0))
| [ip, fp] =>
  match ip ++ fp with
  | [] => none
  | ds => (decDigitsAux ds 0).map (fun n => (n, fp.length))
| _ => none

/-- Fuel-driven loop of `stripTrailingZeros`; the fuel only bounds the
number of divisions by 10 and never runs out when it starts at `n`. -/
def stripZerosAux : ℕ → ℕ → ℕ × ℕ
| 0, n => (n, 0)
| fuel + 1, n =>
  if n ≠ 0 ∧ n % 10 = 0 then
    let p := stripZerosAux fuel (n / 10)
    (p.1, p.2 + 1)
  else (n, 0)

/-- Write `n ≠ 0` as `m * 10 ^ j` with `m` not divisible by 10: the
digit-stripping performed by `Decimal.normalize`.  Returns `(m, j)`. -/
def stripTrailingZeros (n : ℕ) : ℕ × ℕ :=
stripZerosAux n n

/-- `Response.format_price`: divide the cents string by 100 as an exact
decimal, `normalize()` (yielding coefficient `m` and exponent `e` with
`m` not divisible by 10), rotate the coefficient left by `-e` digits and
normalize again (recovering the integer mantissa when `e ≤ 0`), and
return the upper-case hex of the mantissa and of the negated exponent.
The model covers results within the 28-digit context precision that
`decimal` applies to `rotate`; for a positive normalized exponent the
rotate/`int(...)` sequence raises (`none`). -/
def format_price (cents : String) : Option (String × String) :=
match parseDecimal? cents with
| none => none
| some (num, fracLen) =>
  let k := fracLen + 2
  if num = 0 then some (to_hex 0, to_hex 0)
  else
    let m := (stripTrailingZeros num).1
    let j := (stripTrailingZeros num).2
    let e : ℤ := (j : ℤ) - (k : ℤ)
    if e ≤ 0 then some (to_hex m, to_hex (-e).toNat)
    else none

/-! ## Helper lemmas -/

@[simp]
theorem ok_bind {ε α β : Type} (a : α) (f : α → Except ε β) :
    (Except.ok a >>= f : Except ε β) = f a := rfl

@[simp]
theorem error_bind {ε α β : Type} (e : ε) (f : α → Except ε β) :
    (Except.error e >>= f : Except ε β) = Except.error e := rfl

theorem hexNat?_empty : hexNat? "" = none := by decide

theorem ne_empty_of_hexNat? {s : String} {n : ℕ} (h : hexNat? s = some n) : ¬ s = "" := by
  intro he
  subst he
  rw [hexNat?_empty] at h
  cases h

theorem to_int_some_of_parse {s : String} {n : ℕ} (h : hexNat? s = some n) :
    to_int (some s) = Except.ok n := by
  simp [to_int, ne_empty_of_hexNat? h, h]

theorem attrInt_val_of_parse {s : String} {n : ℕ} (h : hexNat? s = some n) :
    attrInt (FieldVal.val s) = Except.ok n := by
  simp [attrInt, getAttr, to_int_some_of_parse h]

theorem truthyF_val_of_parse {s : String} {n : ℕ} (h : hexNat? s = some n) :
    truthyF (FieldVal.val s) = true := by
  simp [truthyF, ne_empty_of_hexNat? h]

theorem adjustPlain_val_of_parse {s : String} {n : ℕ} (h : hexNat? s = some n) (o : ℤ) :
    adjustPlain (FieldVal.val s) o = Except.ok (TimeField.int ((n : ℤ) + o), some n) := by
  simp [adjustPlain, truthyF_val_of_parse h, getAttr, to_int_some_of_parse h]

theorem adjustStart_val_of_parse {s : String} {n : ℕ} (h : hexNat? s = some n) (o : ℤ) :
    adjustStart (FieldVal.val s) o =
      Except.ok (TimeField.int (((n : ℤ) + o) - ((n : ℤ) + o) % 300), some n) := by
  simp [adjustStart, truthyF_val_of_parse h, getAttr, to_int_some_of_parse h]

theorem adjustPlain_absent (o : ℤ) :
    adjustPlain FieldVal.absent o = Except.ok (TimeField.raw FieldVal.absent, none) := rfl

/-! ## Claims -/

/-- C1.  `to_formatted(raw, multiplier, divisor, digits_right)` returns
`raw * multiplier / divisor` rounded to `digits_right` decimal places,
and a zero divisor yields `0` instead of raising (`ZeroDivisionError` is
caught); checked in addition on the spec's `CurrentSummationDelivered`
example, where `0x95800be * 1 / 1000` rounded to 1 place is
`156762.3`. -/
theorem to_formatted_scale_rule :
    (∀ (v : ℤ) (m d dr : ℕ),
        to_formatted v m d dr =
          if d = 0 then 0 else roundTo dr (((v * m : ℤ) : ℚ) / (d : ℚ))) ∧
      to_formatted 156762302 1 1000 1 = 1567623 / 10 ∧
      to_formatted 5 3 0 2 = 0 := by
  refine ⟨fun v m d dr => rfl, ?_, by simp [to_formatted]⟩
  unfold to_formatted roundTo roundHalfEven
  norm_num

/-- C2.  In a Demand-family decode with a clock-offset fact present, for
nonnegative raw dates and offset: `start_date` becomes
`raw + offset - ((raw + offset) % 300)`; `time_stamp` and `end_date`,
when present, become `raw + offset` without the 300-second flooring; and
each adjusted field's pre-adjustment integer is preserved under the
corresponding `reported_*` attribute (second conjunct: `time_stamp` and
`end_date` absent are left untouched). -/
theorem demand_time_adjustment
    (ms ds drs dls ts ss es : String) (m d dr dl tn sn en : ℕ) (off : ℤ)
    (_hoff : 0 ≤ off)
    (hm : hexNat? ms = some m) (hd : hexNat? ds = some d)
    (hdr : hexNat? drs = some dr) (hdl : hexNat? dls = some dl)
    (hts : hexNat? ts = some tn) (hss : hexNat? ss = some sn)
    (hes : hexNat? es = some en) :
    demandFormat
        ⟨FieldVal.val ms, FieldVal.val ds, FieldVal.val drs, FieldVal.val dls,
          FieldVal.val ts, FieldVal.val ss, FieldVal.val es⟩ (some off) =
      Except.ok
        ⟨m, d, dr, dl, some off, TimeField.int ((tn : ℤ) + off),
          TimeField.int (((sn : ℤ) + off) - ((sn : ℤ) + off) % 300),
          TimeField.int ((en : ℤ) + off), some tn, some sn, some en⟩ ∧
    demandFormat
        ⟨FieldVal.val ms, FieldVal.val ds, FieldVal.val drs, FieldVal.val dls,
          FieldVal.absent, FieldVal.val ss, FieldVal.absent⟩ (some off) =
      Except.ok
        ⟨m, d, dr, dl, some off, TimeField.raw FieldVal.absent,
          TimeField.int (((sn : ℤ) + off) - ((sn : ℤ) + off) % 300),
          TimeField.raw FieldVal.absent, none, some sn, none⟩ := by
  constructor <;>
    simp [demandFormat, attrInt_val_of_parse hm, attrInt_val_of_parse hd,
      attrInt_val_of_parse hdr, attrInt_val_of_parse hdl,
      adjustPlain_val_of_parse hts, adjustStart_val_of_parse hss,
      adjustPlain_val_of_parse hes, adjustPlain_absent]

/-- Witness for C2: the `CurrentPeriodUsage`-style frame from the test
suite with offset 100. -/
theorem demand_time_adjustment_witness :
    (0 : ℤ) ≤ 100 ∧
      demandFormat
          ⟨FieldVal.val "0x1", FieldVal.val "0x3e8", FieldVal.val "0x1", FieldVal.val "0x6",
            FieldVal.val "0x2db8b898", FieldVal.val "0x2db82ad2", FieldVal.val "0x2db82a96"⟩
          (some 100) =
        Except.ok
          ⟨1, 1000, 1, 6, some 100, TimeField.int 767080700, TimeField.int 767044200,
            TimeField.int 767044346, some 767080600, some 767044306, some 767044246⟩ :=
  ⟨by norm_num,
    (demand_time_adjustment "0x1" "0x3e8" "0x1" "0x6" "0x2db8b898" "0x2db82ad2" "0x2db82a96"
        1 1000 1 6 767080600 767044306 767044246 100 (by norm_num) (by decide) (by decide)
        (by decide) (by decide) (by decide) (by decide) (by decide)).1⟩

theorem timeClusterFormat_val_of_parse {us ls : String} {un ln : ℕ}
    (hu : hexNat? us = some un) (hl : hexNat? ls = some ln) (now utcoff : ℤ) :
    timeClusterFormat now utcoff ⟨FieldVal.val us, FieldVal.val ls⟩ =
      Except.ok ⟨un, ln, now - (ln : ℤ) + utcoff⟩ := by
  simp [timeClusterFormat, attrInt_val_of_parse hu, attrInt_val_of_parse hl]

theorem runSession_append (xs ys : List SessionEv) (st : Option ℤ) :
    runSession st (xs ++ ys) = runSession st xs ++ runSession (runFact st xs) ys := by
  induction xs generalizing st with
  | nil => simp [runSession, runFact]
  | cons e rest ih =>
    cases e with
    | tc now u f => simp [runSession, ih, runFact]
    | dem g => simp [runSession, ih, runFact, stepFact]

/-- C3.  A `TimeCluster` decode computes the clock-offset fact as
`now_epoch_seconds - local_time + local_utc_offset_seconds` with
`local_time` hex-decoded (first conjunct); a fresh `TimeCluster` decode
at the end of any event sequence leaves exactly that offset as the
session fact, replacing whatever was cached before (second conjunct);
and every Demand-family decode reads the fact accumulated from all
events before it, i.e. the most recently computed offset (third
conjunct). -/
theorem timeCluster_offset_fact :
    (∀ (now utcoff : ℤ) (us ls : String) (un ln : ℕ),
        hexNat? us = some un → hexNat? ls = some ln →
        timeClusterFormat now utcoff ⟨FieldVal.val us, FieldVal.val ls⟩ =
          Except.ok ⟨un, ln, now - (ln : ℤ) + utcoff⟩) ∧
    (∀ (st : Option ℤ) (evs : List SessionEv) (now utcoff : ℤ) (us ls : String) (un ln : ℕ),
        hexNat? us = some un → hexNat? ls = some ln →
        runFact st (evs ++ [SessionEv.tc now utcoff ⟨FieldVal.val us, FieldVal.val ls⟩]) =
          some (now - (ln : ℤ) + utcoff)) ∧
    (∀ (st : Option ℤ) (evs : List SessionEv) (g : DemandFields),
        runSession st (evs ++ [SessionEv.dem g]) =
          runSession st evs ++ [demandFormat g (runFact st evs)]) := by
  refine ⟨fun now utcoff us ls un ln hu hl => timeClusterFormat_val_of_parse hu hl now utcoff,
    fun st evs now utcoff us ls un ln hu hl => ?_, fun st evs g => ?_⟩
  · rw [runFact, List.foldl_append]
    simp [stepFact, timeClusterFormat_val_of_parse hu hl now utcoff, runFact]
  · rw [runSession_append]
    simp [runSession]

/-- Witness for C3: the fact left by the test suite's `TimeCluster`
frame decoded at epoch 767161130 with UTC offset -25200. -/
theorem timeCluster_offset_fact_witness :
    runFact none
        [SessionEv.tc 767161130 (-25200) ⟨FieldVal.val "0x2dba38b2", FieldVal.val "0x2db9c832"⟩] =
      some (-14200) :=
  timeCluster_offset_fact.2.1 none [] 767161130 (-25200) "0x2dba38b2" "0x2db9c832"
    767178930 767150130 (by decide) (by decide)

theorem priceClusterFormat_val {ps cs ts tds : String} {p c t td : ℕ}
    (hsent : ps ≠ "0xffffffff") (hps : hexNat? ps = some p) (hcs : hexNat? cs = some c)
    (hts : hexNat? ts = some t) (htds : hexNat? tds = some td) :
    priceClusterFormat ⟨FieldVal.val ps, FieldVal.val cs, FieldVal.val ts, FieldVal.val tds⟩ =
      Except.ok ⟨some ps, some ((p : ℚ) / (10 : ℚ) ^ ((td : ℤ) - 2)), c, t, td⟩ := by
  by_cases hp : p = 0
  · subst hp
    simp [priceClusterFormat, getAttr, hsent, to_int_some_of_parse hps,
      attrInt_val_of_parse hcs, attrInt_val_of_parse hts, attrInt_val_of_parse htds]
  · simp [priceClusterFormat, getAttr, hsent, to_int_some_of_parse hps,
      attrInt_val_of_parse hcs, attrInt_val_of_parse hts, attrInt_val_of_parse htds, hp]

theorem priceClusterFormat_sentinel {cs ts tds : String} {c t td : ℕ}
    (hcs : hexNat? cs = some c) (hts : hexNat? ts = some t) (htds : hexNat? tds = some td) :
    priceClusterFormat
        ⟨FieldVal.val "0xffffffff", FieldVal.val cs, FieldVal.val ts, FieldVal.val tds⟩ =
      Except.ok ⟨some "0xffffffff", none, c, t, td⟩ := by
  simp [priceClusterFormat, getAttr, attrInt_val_of_parse hcs, attrInt_val_of_parse hts,
    attrInt_val_of_parse htds]

/-- C4.  A `PriceCluster` decode maps the sentinel raw price
`0xffffffff` to a null price regardless of `trailing_digits` (first
conjunct); any other raw price is hex-decoded and rescaled to
`price / 10 ^ (trailing_digits - 2)` (second conjunct); in particular
raw price `0x0000013b` with `trailing_digits` `0x03` decodes to `31.5`
(third conjunct). -/
theorem priceCluster_decode :
    (∀ (cs ts tds : String) (c t td : ℕ),
        hexNat? cs = some c → hexNat? ts = some t → hexNat? tds = some td →
        priceClusterFormat
            ⟨FieldVal.val "0xffffffff", FieldVal.val cs, FieldVal.val ts, FieldVal.val tds⟩ =
          Except.ok ⟨some "0xffffffff", none, c, t, td⟩) ∧
    (∀ (ps cs ts tds : String) (p c t td : ℕ),
        ps ≠ "0xffffffff" →
        hexNat? ps = some p → hexNat? cs = some c → hexNat? ts = some t →
        hexNat? tds = some td →
        priceClusterFormat
            ⟨FieldVal.val ps, FieldVal.val cs, FieldVal.val ts, FieldVal.val tds⟩ =
          Except.ok ⟨some ps, some ((p : ℚ) / (10 : ℚ) ^ ((td : ℤ) - 2)), c, t, td⟩) ∧
    priceClusterFormat
        ⟨FieldVal.val "0x0000013b", FieldVal.val "0x0348", FieldVal.val "0x01",
          FieldVal.val "0x03"⟩ =
      Except.ok ⟨some "0x0000013b", some (63 / 2 : ℚ), 840, 1, 3⟩ := by
  refine ⟨fun cs ts tds c t td hcs hts htds => priceClusterFormat_sentinel hcs hts htds,
    fun ps cs ts tds p c t td hsent hps hcs hts htds =>
      priceClusterFormat_val hsent hps hcs hts htds, ?_⟩
  rw [@priceClusterFormat_val "0x0000013b" "0x0348" "0x01" "0x03" 315 840 1 3 (by decide)
    (by decide) (by decide) (by decide) (by decide)]
  norm_num

/-- Witness for C4: a non-sentinel price `0x1f4` (500) with
`trailing_digits` 3 rescales to `500 / 10`. -/
theorem priceCluster_decode_witness :
    priceClusterFormat
        ⟨FieldVal.val "0x1f4", FieldVal.val "0x0348", FieldVal.val "0x01", FieldVal.val "0x03"⟩ =
      Except.ok ⟨some "0x1f4", some ((500 : ℚ) / (10 : ℚ) ^ ((3 : ℤ) - 2)), 840, 1, 3⟩ :=
  priceCluster_decode.2.1 "0x1f4" "0x0348" "0x01" "0x03" 500 840 1 3 (by decide) (by decide)
    (by decide) (by decide) (by decide)

/-- C9.  The `PriceCluster` sentinel test is an exact string comparison
against the lowercase literal `0xffffffff`, performed before hex
decoding: `0xFFFFFFFF` (first conjunct) and `0xffffffff ` with trailing
padding (second conjunct) are not mapped to null but hex-decode to
4294967295 and are rescaled like any price, while the exact lowercase
spelling is mapped to null (third conjunct); in general any other
spelling of the value 4294967295 is rescaled (fourth conjunct). -/
theorem price_sentinel_exact_match :
    priceClusterFormat
        ⟨FieldVal.val "0xFFFFFFFF", FieldVal.val "0x0348", FieldVal.val "0x01",
          FieldVal.val "0x03"⟩ =
      Except.ok ⟨some "0xFFFFFFFF", some ((4294967295 : ℚ) / 10), 840, 1, 3⟩ ∧
    priceClusterFormat
        ⟨FieldVal.val "0xffffffff ", FieldVal.val "0x0348", FieldVal.val "0x01",
          FieldVal.val "0x03"⟩ =
      Except.ok ⟨some "0xffffffff ", some ((4294967295 : ℚ) / 10), 840, 1, 3⟩ ∧
    priceClusterFormat
        ⟨FieldVal.val "0xffffffff", FieldVal.val "0x0348", FieldVal.val "0x01",
          FieldVal.val "0x03"⟩ =
      Except.ok ⟨some "0xffffffff", none, 840, 1, 3⟩ ∧
    (∀ (s cs ts tds : String) (c t td : ℕ),
        s ≠ "0xffffffff" → hexNat? s = some 4294967295 →
        hexNat? cs = some c → hexNat? ts = some t → hexNat? tds = some td →
        priceClusterFormat ⟨FieldVal.val s, FieldVal.val cs, FieldVal.val ts, FieldVal.val tds⟩ =
          Except.ok
            ⟨some s, some ((4294967295 : ℚ) / (10 : ℚ) ^ ((td : ℤ) - 2)), c, t, td⟩) := by
  refine ⟨?_, ?_, @priceClusterFormat_sentinel "0x0348" "0x01" "0x03" 840 1 3 (by decide) (by decide) (by decide),
    fun s cs ts tds c t td hsent hs hcs hts htds =>
      priceClusterFormat_val hsent hs hcs hts htds⟩
  · rw [@priceClusterFormat_val "0xFFFFFFFF" "0x0348" "0x01" "0x03" 4294967295 840 1 3
      (by decide) (by decide) (by decide) (by decide) (by decide)]
    norm_num
  · rw [@priceClusterFormat_val "0xffffffff " "0x0348" "0x01" "0x03" 4294967295 840 1 3
      (by decide) (by decide) (by decide) (by decide) (by decide)]
    norm_num

/-- Witness for C9: the upper-case spelling decoded through the general
non-sentinel clause. -/
theorem price_sentinel_exact_match_witness :
    priceClusterFormat
        ⟨FieldVal.val "0XFFFFFFFF", FieldVal.val "0x0348", FieldVal.val "0x01",
          FieldVal.val "0x03"⟩ =
      Except.ok
        ⟨some "0XFFFFFFFF", some ((4294967295 : ℚ) / (10 : ℚ) ^ ((3 : ℤ) - 2)), 840, 1, 3⟩ :=
  price_sentinel_exact_match.2.2.2 "0XFFFFFFFF" "0x0348" "0x01" "0x03" 840 1 3 (by decide)
    (by decide) (by decide) (by decide) (by decide)

/-- C5.  `format_price` maps a terminating decimal cents string to the
device's (mantissa-hex, negated-exponent-hex) pair:
`format_price("31.50") = (hex(315), hex(3))`,
`format_price("1.11") = (hex(111), hex(4))`,
`format_price("111.111") = (hex(111111), hex(5))`; and it is an
approximate inverse of the `PriceCluster` price decode: feeding the
encoded pair of `"31.50"` back through `PriceCluster._format` recovers
the price `31.5` cents. -/
theorem format_price_examples :
    format_price "31.50" = some (to_hex 315, to_hex 3) ∧
    format_price "1.11" = some (to_hex 111, to_hex 4) ∧
    format_price "111.111" = some (to_hex 111111, to_hex 5) ∧
    priceClusterFormat
        ⟨FieldVal.val (to_hex 315), FieldVal.val "0x0348", FieldVal.val "0x01",
          FieldVal.val (to_hex 3)⟩ =
      Except.ok ⟨some (to_hex 315), some (63 / 2 : ℚ), 840, 1, 3⟩ := by
  refine ⟨by decide, by decide, by decide, ?_⟩
  rw [show to_hex 315 = "0x13B" from by decide, show to_hex 3 = "0x3" from by decide]
  rw [@priceClusterFormat_val "0x13B" "0x0348" "0x01" "0x3" 315 840 1 3 (by decide)
    (by decide) (by decide) (by decide) (by decide)]
  norm_num

/-- C6 counterexample.  The claim that a disconnect discards the
partially accumulated buffer is false: `serial_reader` clears `buffer`
only on frame completion, so after reading the line `<A>` and then
suffering a disconnect, the buffer still holds `<A>`, and the frame
completed by the post-reconnect line `</A>` spans the disconnect
boundary. -/
theorem frame_spans_disconnect_counterexample :
    (serialRun ⟨ "", []⟩ [ReaderEv.line "<A>", ReaderEv.disconnect]).buffer = "<A>" ∧
    serialRun ⟨ "", []⟩ [ReaderEv.line "<A>", ReaderEv.disconnect, ReaderEv.line "</A>"] =
      ⟨ "", ["<A></A>"]⟩ := by
  exact ⟨by decide, by decide⟩

/-- C6 amended.  A disconnect leaves the reader state — in particular
any partially accumulated frame buffer — unchanged (first conjunct), so
the first line read after reconnecting is appended to the preserved
buffer exactly as if no disconnect had happened (second conjunct):
frames may span a disconnect boundary. -/
theorem disconnect_preserves_buffer :
    (∀ st : ReaderState, serialStep st ReaderEv.disconnect = st) ∧
    (∀ (st : ReaderState) (pre : List ReaderEv) (s : String),
        serialRun st (pre ++ [ReaderEv.disconnect, ReaderEv.line s]) =
          serialStep (serialRun st pre) (ReaderEv.line s)) := by
  refine ⟨fun st => rfl, fun st pre s => ?_⟩
  rw [serialRun, List.foldl_append]
  rfl

/-- C7 counterexample.  The claim that a missing expected field is
defaulted rather than failing the decode is false for a wholly absent
field: a Demand-family frame with no `Multiplier` key, and a
`PriceCluster` frame with no `Price` key, both raise `AttributeError`
(the frame is then discarded by `serial_reader`). -/
theorem missing_field_decode_fails_counterexample :
    demandFormat
        ⟨FieldVal.absent, FieldVal.val "0x3e8", FieldVal.val "0x1", FieldVal.val "0x0",
          FieldVal.absent, FieldVal.absent, FieldVal.absent⟩ none =
      Except.error DecodeErr.attributeError ∧
    priceClusterFormat
        ⟨FieldVal.absent, FieldVal.val "0x348", FieldVal.val "0x1", FieldVal.val "0x3"⟩ =
      Except.error DecodeErr.attributeError :=
  ⟨rfl, rfl⟩

/-- C7 amended.  The default applies to a field that is present but
empty (`xmltodict` parses an empty element as `None`, and
`to_int(value or '0x00')` maps it to 0): `to_int` defaults `None` to 0
(first conjunct); a Demand-family frame whose `Multiplier`, `Divisor`
and `DigitsRight` elements are empty decodes with those values 0 (third
conjunct), and a `PriceCluster` frame with an empty `Price` element
decodes with price 0 (fourth conjunct).  A wholly absent field, by
contrast, raises `AttributeError` and the decode fails (second
conjunct). -/
theorem empty_field_defaults :
    to_int none = Except.ok 0 ∧
    (∀ (f : DemandFields) (off : Option ℤ), f.multiplier = FieldVal.absent →
        demandFormat f off = Except.error DecodeErr.attributeError) ∧
    (∀ (dls : String) (dl : ℕ) (off : ℤ), hexNat? dls = some dl →
        demandFormat
            ⟨FieldVal.empty, FieldVal.empty, FieldVal.empty, FieldVal.val dls,
              FieldVal.absent, FieldVal.absent, FieldVal.absent⟩ (some off) =
          Except.ok
            ⟨0, 0, 0, dl, some off, TimeField.raw FieldVal.absent,
              TimeField.raw FieldVal.absent, TimeField.raw FieldVal.absent, none, none,
              none⟩) ∧
    (∀ (cs ts tds : String) (c t td : ℕ),
        hexNat? cs = some c → hexNat? ts = some t → hexNat? tds = some td →
        priceClusterFormat
            ⟨FieldVal.empty, FieldVal.val cs, FieldVal.val ts, FieldVal.val tds⟩ =
          Except.ok ⟨none, some ((0 : ℚ)), c, t, td⟩) := by
  refine ⟨rfl, fun f off hm => ?_, fun dls dl off hdl => ?_, fun cs ts tds c t td hcs hts htds => ?_⟩
  · simp [demandFormat, hm, attrInt, getAttr]
  · simp [demandFormat, attrInt, getAttr, to_int, hdl, ne_empty_of_hexNat? hdl, truthyF,
      adjustPlain, adjustStart]
  · simp [priceClusterFormat, getAttr, to_int, attrInt_val_of_parse hcs,
      attrInt_val_of_parse hts, attrInt_val_of_parse htds]

/-- Witness for C7's amended claim: concrete empty-element decodes. -/
theorem empty_field_defaults_witness :
    demandFormat
        ⟨FieldVal.empty, FieldVal.empty, FieldVal.empty, FieldVal.val "0x6",
          FieldVal.absent, FieldVal.absent, FieldVal.absent⟩ (some 7) =
      Except.ok
        ⟨0, 0, 0, 6, some 7, TimeField.raw FieldVal.absent, TimeField.raw FieldVal.absent,
          TimeField.raw FieldVal.absent, none, none, none⟩ :=
  empty_field_defaults.2.2.1 "0x6" 6 7 (by decide)

theorem writerRun_head_le {α : Type} (ps : List (ℕ × α)) (t : ℤ) :
    ∀ x ∈ (writerRun t ps).head?, t ≤ x.2 := by
  cases ps with
  | nil => simp [writerRun]
  | cons p rest =>
    obtain ⟨w, c⟩ := p
    simp [writerRun]

/-- C8.  In the `serial_writer` trace model, writes happen in enqueue
order (first conjunct), and any two consecutive writes are at least 3
seconds apart: after each write the writer sleeps 3 seconds before
accepting the next queued command (second conjunct). -/
theorem serial_writer_pacing {α : Type} (t : ℤ) (ps : List (ℕ × α)) :
    (writerRun t ps).map Prod.fst = ps.map Prod.snd ∧
    List.Chain' (fun a b : α × ℤ => a.2 + 3 ≤ b.2) (writerRun t ps) := by
  induction ps generalizing t with
  | nil => simp [writerRun]
  | cons p rest ih =>
    obtain ⟨w, c⟩ := p
    refine ⟨?_, ?_⟩
    · simp [writerRun, (ih (t + (w : ℤ) + 3)).1]
    · rw [writerRun, List.chain'_cons']
      refine ⟨fun b hb => ?_, (ih (t + (w : ℤ) + 3)).2⟩
      have := writerRun_head_le rest (t + (w : ℤ) + 3) b hb
      omega

/-- C10.  The `ResponseFactory` dispatch table is built from the direct
subclasses of `Response`, which include the shared base class `Demand`
itself: a frame tagged exactly `Demand` is accepted and constructed via
the base `Demand` transform (`demandFormat` in this embedding), while
any tag outside the subclass set raises the `NotImplementedError`
message. -/
theorem responseFactory_dispatch :
    responseFactory "Demand" = Except.ok ResponseKind.demand ∧
    "Demand" ∈ responseTypes ∧
    (∀ t : String, t ∉ responseTypes →
        responseFactory t = Except.error ("Response type \"" ++ t ++ "\" is not defined")) := by
  refine ⟨rfl, by decide, fun t ht => ?_⟩
  have hnone : responseKinds.find? (fun k => className k == t) = none := by
    rw [List.find?_eq_none]
    intro k hk
    simp only [beq_iff_eq]
    intro he
    exact ht (by rw [responseTypes]; exact List.mem_map.mpr ⟨k, hk, he⟩)
  rw [responseFactory, hnone]

/-- Witness for C10: the tag `Foo` is not a `Response` subclass name and
is rejected. -/
theorem responseFactory_dispatch_witness :
    responseFactory "Foo" = Except.error ("Response type \"Foo\" is not defined") :=
  responseFactory_dispatch.2.2 "Foo" (by decide)

end Emu2Mqtt
